import Mathlib

/-!
Shallow embedding of the stockforecaster repository's forecasting core
(src/stockforecaster.py, src/lambda_function.py) and verification of its
specification's claims.

Price values are modelled as real numbers (the source computes with
floating-point numpy arrays); shapes and indices as naturals.  Each
definition is a direct translation of the named Python function.
-/

namespace StockForecaster

/-! ## Constants (src/stockforecaster.py lines 45-52) -/

/-- `DAYS_AHEAD = 20`: number of future steps predicted. -/
def DAYS_AHEAD : ℕ := 20

/-- `WINDOW_SIZE = 20`: length of each sliding window. -/
def WINDOW_SIZE : ℕ := 20

/-- `ALPHA = 0.25`: weight of the training RMSE in the epoch score. -/
def ALPHA : ℝ := 0.25

/-! ## Windower: `slidingWindow` (src/stockforecaster.py lines 55-90)

The Python loop runs `for i in range((len(input) - 1) - window_size)`,
appending the slice `input[i : i + window_size]` to `WINDOW` and the point
`input[i + window_size]` to `TARGET`.  A slice is `take` after `drop`; the
loop over `range` is a `map`.  Python's `range` of a negative number is
empty, matching truncated subtraction on `ℕ`. -/

def slidingWindow {α : Type} [Inhabited α] (input : List α) (window_size : ℕ) :
    List (List α) × List α :=
  ((List.range (input.length - 1 - window_size)).map
      (fun i => (input.drop i).take window_size),
   (List.range (input.length - 1 - window_size)).map
      (fun i => input.getD (i + window_size) default))

/-! ## Leak check: `dataLeakOccured` (src/stockforecaster.py lines 93-102)

Shapes of the 2-D numpy arrays are pairs (rows, columns); the function
compares only the first components. -/

def dataLeakOccured (merge_shape shape_1 shape_2 : ℕ × ℕ) : Bool :=
  !(merge_shape.1 == shape_1.1 + shape_2.1)

/-! ## Chronological split (src/stockforecaster.py lines 184-196)

`training_phase = int(DATA_LENGTH * 0.80)` truncates `0.8 * n` to an
integer, i.e. `⌊4n/5⌋`; `training_df = prices_df[0:training_phase]` and
`val_df = prices_df[training_phase:DATA_LENGTH]`. -/

def training_phase (DATA_LENGTH : ℕ) : ℕ := DATA_LENGTH * 4 / 5

def training_df {α : Type} (prices_df : List α) : List α :=
  prices_df.take (training_phase prices_df.length)

def val_df {α : Type} (prices_df : List α) : List α :=
  prices_df.drop (training_phase prices_df.length)

end StockForecaster

namespace StockForecaster

/-! ## Epoch scoring and selection (src/stockforecaster.py lines 264-305)

For `i in range(len(epochs))` the source computes
`training_RMSE = sqrt(training_loss_list[i])`,
`val_RMSE = sqrt(val_loss_list[i])` and
`score = 1 / (ALPHA * training_RMSE + (1 - ALPHA) * val_RMSE)`;
`optimal_index = scores_df['score'].idxmax()` is the index of the FIRST
occurrence of the maximal score (pandas `idxmax` semantics). -/

noncomputable def epochScore (training_loss val_loss : ℝ) : ℝ :=
  1 / (ALPHA * Real.sqrt training_loss + (1 - ALPHA) * Real.sqrt val_loss)

/-- The score list built by the loop `for i in range(len(epochs))`. -/
noncomputable def scores (numEpochs : ℕ) (training_loss_list val_loss_list : List ℝ) : List ℝ :=
  (List.range numEpochs).map
    (fun i => epochScore (training_loss_list.getD i 0) (val_loss_list.getD i 0))

/-- First index of the running maximum: `bi`/`bv` are the best index and
value so far, `i` the index of the head of the remaining list.  A later
element replaces the best only when strictly greater, so ties keep the
earliest index, as pandas `idxmax` does. -/
def idxmaxAux {α : Type} [LinearOrder α] (bi : ℕ) (bv : α) (i : ℕ) :
    List α → ℕ
  | [] => bi
  | y :: ys => if bv < y then idxmaxAux i y (i + 1) ys else idxmaxAux bi bv (i + 1) ys

/-- `pandas.Series.idxmax`: index of the first occurrence of the maximum. -/
def idxmax {α : Type} [LinearOrder α] : List α → ℕ
  | [] => 0
  | x :: xs => idxmaxAux 0 x 1 xs

/-! ## Forecaster (src/stockforecaster.py lines 331-356)

A model maps a (scaled) input window to one predicted value, abstracting
`model.predict` on a `(1, 1, WINDOW_SIZE)` array. -/

def Model : Type := List ℝ → ℝ

/-- `np.roll(current_window, -1, axis=2)`: rotate the window left by one,
i.e. `x[1:]` followed by `x[:1]`. -/
def npRollNeg1 (w : List ℝ) : List ℝ := w.drop 1 ++ w.take 1

/-- `current_window[0, 0, -1] = next_price`: overwrite the last entry. -/
def setLast (w : List ℝ) (p : ℝ) : List ℝ := w.set (w.length - 1) p

/-- One iteration's window update: roll left, then overwrite the last slot
with the freshly predicted price (lines 351-354). -/
def rollStep (w : List ℝ) (p : ℝ) : List ℝ := setLast (npRollNeg1 w) p

/-- The `for _ in range(DAYS_AHEAD)` loop of lines 342-354, generalised
over the number of remaining iterations: predict from the current window,
append, update the window, repeat. -/
def forecastAux (model : Model) (current_window : List ℝ) : ℕ → List ℝ
  | 0 => []
  | n + 1 =>
      let next_price := model current_window
      next_price :: forecastAux model (rollStep current_window next_price) n

/-- The window as it stands at the start of iteration `k` of the loop. -/
def windowIter (model : Model) (last_window : List ℝ) : ℕ → List ℝ
  | 0 => last_window
  | k + 1 =>
      let w := windowIter model last_window k
      rollStep w (model w)

/-- The complete forecast loop: `DAYS_AHEAD` iterations from the last
window of the price history. -/
def forecastLoop (model : Model) (last_window : List ℝ) : List ℝ :=
  forecastAux model last_window DAYS_AHEAD

/-! ## Model selection and its use (src/stockforecaster.py lines 264-354)

After `model.fit`, the state of `model` is the last epoch's weights; one
checkpoint file per epoch was saved by the `ModelCheckpoint` callback.
`optimal_index = scores_df['score'].idxmax()` picks the best epoch and
line 305 loads that checkpoint into `optimal_model`.  The prediction code
(lines 314, 320 and 344) then calls `model.predict` — the post-fit final
model — and `optimal_model` is never applied. -/

structure TrainHistory where
  /-- the in-memory `model` after `model.fit` (last epoch's weights) -/
  finalModel : Model
  /-- the per-epoch checkpoints `model_epoch_01.keras`, ..., in epoch order -/
  checkpointModels : List Model
  training_loss_list : List ℝ
  val_loss_list : List ℝ

/-- `optimal_index = scores_df['score'].idxmax()` (line 295), scoring one
row per checkpoint file (`for i in range(len(epochs))`, line 275). -/
noncomputable def optimal_index (h : TrainHistory) : ℕ :=
  idxmax (scores h.checkpointModels.length h.training_loss_list h.val_loss_list)

/-- `optimal_model = load_model(...)` (line 305): the checkpoint of the
optimal epoch. -/
noncomputable def optimal_model (h : TrainHistory) : Model :=
  h.checkpointModels.getD (optimal_index h) (fun _ => 0)

/-- The model the source actually applies in the historical-fit
predictions (lines 314 and 320): `model.predict`, the post-fit model. -/
def fitModel (h : TrainHistory) : Model := h.finalModel

/-- The model the source actually applies in the 20-step forecast loop
(line 344): `model.predict`, the post-fit model. -/
def forecastModel (h : TrainHistory) : Model := h.finalModel

/-- The 20-step autoregressive forecast as the source runs it. -/
def performForecast (h : TrainHistory) (last_window : List ℝ) : List ℝ :=
  forecastAux (forecastModel h) last_window DAYS_AHEAD

/-! ## Metrics: `get_forecast_data` (src/stockforecaster.py lines 374-411) -/

/-- The fields of the `prediction_results` dict consumed by
`get_forecast_data`.  `training_target`/`val_target` and the two
prediction arrays were already inverse-scaled by `perform_prediction`
(lines 267-270 and 314-320); `forecast` likewise (line 359). -/
structure PredictionResults where
  training_target : List ℝ
  val_target : List ℝ
  training_prediction : List ℝ
  val_prediction : List ℝ
  forecast : List ℝ

structure ForecastData where
  history : List ℝ
  predicted_history : List ℝ
  model_forecast : List ℝ
  mape : ℝ

/-- `np.mean(np.abs((history - predicted_history) / history)) * 100`
(line 404): elementwise quotient then absolute value, averaged. -/
noncomputable def mapeOf (history predicted_history : List ℝ) : ℝ :=
  ((List.zipWith (fun a f => |(a - f) / a|) history predicted_history).sum /
    (List.zipWith (fun a f => |(a - f) / a|) history predicted_history).length) * 100

/-- Errors of the spec's §7 taxonomy for the Metrics stage.  The source
function body contains no `raise`; the `Except` codomain only makes the
absence of an error path expressible, and the translation always returns
`Except.ok`. -/
inductive MetricsError : Type
  | degenerateInput (index : ℕ)

noncomputable def get_forecast_data (r : PredictionResults) :
    Except MetricsError ForecastData :=
  Except.ok
    { history := r.training_target ++ r.val_target
      predicted_history := r.training_prediction ++ r.val_prediction
      model_forecast := (r.training_prediction ++ r.val_prediction) ++ r.forecast
      mape := mapeOf (r.training_target ++ r.val_target)
                     (r.training_prediction ++ r.val_prediction) }

end StockForecaster

namespace LambdaFunction

/-! ## Background pipeline: `process_prediction`
(src/lambda_function.py lines 104-245)

The handler's externally visible behaviour is modelled as the sequence of
DynamoDB status writes and training side-effects it performs, plus the
response it stores.  Data retrieval, LSTM training and the news scraper
are external effects; the embedding keeps what the control flow depends
on: the retrieved series length, and the outcome of the sentiment
`try` block. -/

/-- A DynamoDB status value written by `table.update_item`. -/
inductive DbStatus : Type
  | processing
  | completed
  | failed (error : String)
deriving DecidableEq

/-- Observable side-effects of one `process_prediction` run. -/
inductive Ev : Type
  | dbUpdate (s : DbStatus)
  /-- one epoch of `model.fit` ran (src/stockforecaster.py line 249) -/
  | trainEpoch (epoch : ℕ)
  /-- the `ModelCheckpoint` callback wrote `model_epoch_{epoch}.keras` -/
  | checkpointWrite (epoch : ℕ)
deriving DecidableEq

/-- `epochs=15` in `model.fit` (src/stockforecaster.py line 250). -/
def EPOCHS : ℕ := 15

/-- Training side-effects of `stockforecaster.perform_prediction`: each of
the 15 epochs runs and its checkpoint is saved. -/
def trainingEvents : List Ev :=
  (List.range EPOCHS).flatMap
    (fun i => [Ev.trainEpoch (i + 1), Ev.checkpointWrite (i + 1)])

/-- Sentiment summary placed in the response (lines 162-172), abstracted. -/
structure SentimentData where
  average_sentiment : Option String
  headline_count : ℕ
deriving DecidableEq

/-- Outcome of the body of the sentiment `try` block (lines 154-172):
either some call inside it raised an exception, or `news_df` was empty so
`sentiment_data` stayed `None`, or a summary was computed. -/
inductive SentimentTry : Type
  | raises (message : String)
  | emptyNews
  | scored (s : SentimentData)
deriving DecidableEq

/-- What one run leaves behind: the ordered effects, the status stored
last, whether the stored result has a `sentiment` section, and the HTTP
status code of the handler's own return value. -/
structure ProcessResult where
  events : List Ev
  finalStatus : DbStatus
  responseSentiment : Option SentimentData
  statusCode : ℕ
deriving DecidableEq

/-- `str(ValueError(...))` of lines 139-141. -/
def insufficientHistoryMessage (got : ℕ) : String :=
  "Insufficient history: need at least 125 days, got " ++ toString got

/-- `process_prediction` (lines 104-245): status → PROCESSING; retrieve
data; `if len(prices_df) < 125: raise ValueError(...)` — caught by the
outer `except`, which stores FAILED and returns 500.  Otherwise training
runs, the sentiment `try` block's exception (if any) is swallowed with
`sentiment_data = None`, the response gains a `sentiment` key only when
`sentiment_data` is truthy, and status COMPLETED is stored with code
200. -/
def process_prediction (nPrices : ℕ) (include_sentiment : Bool)
    (sentimentTry : SentimentTry) : ProcessResult :=
  if nPrices < 125 then
    { events := [Ev.dbUpdate DbStatus.processing,
                 Ev.dbUpdate (DbStatus.failed (insufficientHistoryMessage nPrices))]
      finalStatus := DbStatus.failed (insufficientHistoryMessage nPrices)
      responseSentiment := none
      statusCode := 500 }
  else
    let sentiment_data : Option SentimentData :=
      if include_sentiment then
        match sentimentTry with
        | SentimentTry.raises _ => none
        | SentimentTry.emptyNews => none
        | SentimentTry.scored s => some s
      else none
    { events := Ev.dbUpdate DbStatus.processing :: trainingEvents ++
                [Ev.dbUpdate DbStatus.completed]
      finalStatus := DbStatus.completed
      responseSentiment := sentiment_data
      statusCode := 200 }

end LambdaFunction

namespace StockForecaster

/-! ## Theorems -/

/-- C2: For every input series of length n and every window size w, the
Windower produces exactly max(0, n-1-w) windows, each window i being
series[i : i+w] of length w with target series[i+w], in index-aligned
chronological order; when n-1-w <= 0 the result is empty. -/
theorem windower_spec {α : Type} [Inhabited α] (series : List α) (w : ℕ) :
    (((slidingWindow series w).1.length : ℤ) = max 0 ((series.length : ℤ) - 1 - w)) ∧
    (slidingWindow series w).2.length = (slidingWindow series w).1.length ∧
    (∀ i, i < (slidingWindow series w).1.length →
      (slidingWindow series w).1.getD i [] = (series.drop i).take w ∧
      ((slidingWindow series w).1.getD i []).length = w ∧
      i + w < series.length ∧
      (slidingWindow series w).2.getD i default = series.getD (i + w) default) ∧
    ((series.length : ℤ) - 1 - w ≤ 0 →
      (slidingWindow series w).1 = [] ∧ (slidingWindow series w).2 = []) := by
  have h1 : (slidingWindow series w).1.length = series.length - 1 - w := by
    simp [slidingWindow]
  have h2 : (slidingWindow series w).2.length = series.length - 1 - w := by
    simp [slidingWindow]
  refine ⟨by omega, by omega, ?_, ?_⟩
  · intro i hi
    rw [h1] at hi
    have hiw : i + w < series.length := by omega
    refine ⟨?_, ?_, hiw, ?_⟩
    · simp [slidingWindow, List.getD_eq_getElem?_getD, List.getElem?_map,
        List.getElem?_range, hi]
    · simp [slidingWindow, List.getD_eq_getElem?_getD, List.getElem?_map,
        List.getElem?_range, hi]
      omega
    · simp [slidingWindow, List.getD_eq_getElem?_getD, List.getElem?_map,
        List.getElem?_range, hi]
  · intro hle
    have : series.length - 1 - w = 0 := by omega
    constructor <;> simp [slidingWindow, this]

/-- Witness for C2 at the concrete series [3, 1, 4, 1, 5] with w = 2:
5 - 1 - 2 = 2 windows exist. -/
theorem windower_spec_witness :
    0 < ((slidingWindow ([3, 1, 4, 1, 5] : List ℚ) 2).1).length ∧
    ((((slidingWindow ([3, 1, 4, 1, 5] : List ℚ) 2).1.length : ℤ) =
        max 0 ((([3, 1, 4, 1, 5] : List ℚ).length : ℤ) - 1 - 2)) ∧
      (slidingWindow ([3, 1, 4, 1, 5] : List ℚ) 2).2.length =
        (slidingWindow ([3, 1, 4, 1, 5] : List ℚ) 2).1.length ∧
      (∀ i, i < (slidingWindow ([3, 1, 4, 1, 5] : List ℚ) 2).1.length →
        (slidingWindow ([3, 1, 4, 1, 5] : List ℚ) 2).1.getD i [] =
          (([3, 1, 4, 1, 5] : List ℚ).drop i).take 2 ∧
        ((slidingWindow ([3, 1, 4, 1, 5] : List ℚ) 2).1.getD i []).length = 2 ∧
        i + 2 < ([3, 1, 4, 1, 5] : List ℚ).length ∧
        (slidingWindow ([3, 1, 4, 1, 5] : List ℚ) 2).2.getD i default =
          ([3, 1, 4, 1, 5] : List ℚ).getD (i + 2) default) ∧
      ((([3, 1, 4, 1, 5] : List ℚ).length : ℤ) - 1 - 2 ≤ 0 →
        (slidingWindow ([3, 1, 4, 1, 5] : List ℚ) 2).1 = [] ∧
        (slidingWindow ([3, 1, 4, 1, 5] : List ℚ) 2).2 = [])) :=
  ⟨by decide, windower_spec [3, 1, 4, 1, 5] 2⟩

/-- C5: the leak check returns true iff the total length differs from the
sum of the two partition lengths; the chronological split at
floor(0.8*n) partitions without loss, so the check returns false on it,
and mutating either partition length by one makes it return true. -/
theorem leak_check_spec {α : Type} (merge_shape shape_1 shape_2 : ℕ × ℕ)
    (prices : List α) (t v : ℕ) :
    (dataLeakOccured merge_shape shape_1 shape_2 = true ↔
      merge_shape.1 ≠ shape_1.1 + shape_2.1) ∧
    (training_df prices).length + (val_df prices).length = prices.length ∧
    dataLeakOccured (prices.length, 1) ((training_df prices).length, 1)
      ((val_df prices).length, 1) = false ∧
    dataLeakOccured (t + v, 1) (t + 1, 1) (v, 1) = true ∧
    dataLeakOccured (t + v, 1) (t, 1) (v + 1, 1) = true ∧
    (1 ≤ t → dataLeakOccured (t + v, 1) (t - 1, 1) (v, 1) = true) ∧
    (1 ≤ v → dataLeakOccured (t + v, 1) (t, 1) (v - 1, 1) = true) := by
  have hsplit : (training_df prices).length + (val_df prices).length =
      prices.length := by
    have hle : training_phase prices.length ≤ prices.length := by
      unfold training_phase; omega
    simp [training_df, val_df]
    omega
  refine ⟨?_, hsplit, ?_, ?_, ?_, ?_, ?_⟩
  · simp [dataLeakOccured]
  · simp [dataLeakOccured, hsplit]
  · simp [dataLeakOccured]
  · simp [dataLeakOccured]
  · intro ht; simp [dataLeakOccured]; omega
  · intro hv; simp [dataLeakOccured]; omega

/-- Witness for C5 on a 10-element series: the split is 8 / 2 and the ±1
mutations are applicable on both sides. -/
theorem leak_check_spec_witness :
    (1 ≤ 8 ∧ 1 ≤ 2) ∧
    ((dataLeakOccured (10, 1) (8, 1) (2, 1) = true ↔ (10 : ℕ) ≠ 8 + 2) ∧
      (training_df ([0, 1, 2, 3, 4, 5, 6, 7, 8, 9] : List ℚ)).length +
        (val_df ([0, 1, 2, 3, 4, 5, 6, 7, 8, 9] : List ℚ)).length =
        ([0, 1, 2, 3, 4, 5, 6, 7, 8, 9] : List ℚ).length ∧
      dataLeakOccured (([0, 1, 2, 3, 4, 5, 6, 7, 8, 9] : List ℚ).length, 1)
        ((training_df ([0, 1, 2, 3, 4, 5, 6, 7, 8, 9] : List ℚ)).length, 1)
        ((val_df ([0, 1, 2, 3, 4, 5, 6, 7, 8, 9] : List ℚ)).length, 1) = false ∧
      dataLeakOccured (8 + 2, 1) (8 + 1, 1) (2, 1) = true ∧
      dataLeakOccured (8 + 2, 1) (8, 1) (2 + 1, 1) = true ∧
      (1 ≤ 8 → dataLeakOccured (8 + 2, 1) (8 - 1, 1) (2, 1) = true) ∧
      (1 ≤ 2 → dataLeakOccured (8 + 2, 1) (8, 1) (2 - 1, 1) = true)) :=
  ⟨by decide, leak_check_spec (10, 1) (8, 1) (2, 1) [0, 1, 2, 3, 4, 5, 6, 7, 8, 9] 8 2⟩

end StockForecaster

namespace LambdaFunction

/-- C8: for every input price series with fewer than 125 observations,
the pipeline fails before any training occurs — the stored status is
FAILED with the insufficient-history error, no epoch is run and no
checkpoint is written. -/
theorem insufficient_history_fails_fast (n : ℕ) (include_sentiment : Bool)
    (s : SentimentTry) (h : n < 125) :
    process_prediction n include_sentiment s =
      { events := [Ev.dbUpdate DbStatus.processing,
                   Ev.dbUpdate (DbStatus.failed (insufficientHistoryMessage n))]
        finalStatus := DbStatus.failed (insufficientHistoryMessage n)
        responseSentiment := none
        statusCode := 500 } ∧
    (∀ e, Ev.trainEpoch e ∉ (process_prediction n include_sentiment s).events) ∧
    (∀ e, Ev.checkpointWrite e ∉ (process_prediction n include_sentiment s).events) := by
  refine ⟨by simp [process_prediction, h], ?_, ?_⟩ <;>
    intro e <;> simp [process_prediction, h]

/-- Witness for C8: an input series of 50 observations. -/
theorem insufficient_history_fails_fast_witness :
    50 < 125 ∧
    (process_prediction 50 true SentimentTry.emptyNews =
      { events := [Ev.dbUpdate DbStatus.processing,
                   Ev.dbUpdate (DbStatus.failed (insufficientHistoryMessage 50))]
        finalStatus := DbStatus.failed (insufficientHistoryMessage 50)
        responseSentiment := none
        statusCode := 500 } ∧
     (∀ e, Ev.trainEpoch e ∉ (process_prediction 50 true SentimentTry.emptyNews).events) ∧
     (∀ e, Ev.checkpointWrite e ∉
        (process_prediction 50 true SentimentTry.emptyNews).events)) :=
  ⟨by decide, insufficient_history_fails_fast 50 true SentimentTry.emptyNews (by decide)⟩

/-- C10: when sentiment is enabled and the news scraping or sentiment
scoring raises, the exception is contained: the run still completes, the
stored status is COMPLETED (never FAILED), and the stored report has no
sentiment section. -/
theorem sentiment_failure_contained (n : ℕ) (message : String)
    (h : 125 ≤ n) :
    (process_prediction n true (SentimentTry.raises message)).finalStatus =
      DbStatus.completed ∧
    (process_prediction n true (SentimentTry.raises message)).responseSentiment =
      none ∧
    (process_prediction n true (SentimentTry.raises message)).statusCode = 200 ∧
    Ev.dbUpdate DbStatus.completed ∈
      (process_prediction n true (SentimentTry.raises message)).events ∧
    (∀ e, Ev.dbUpdate (DbStatus.failed e) ∉
      (process_prediction n true (SentimentTry.raises message)).events) := by
  have hn : ¬ n < 125 := by omega
  refine ⟨by simp [process_prediction, hn], by simp [process_prediction, hn],
    by simp [process_prediction, hn], by simp [process_prediction, hn], ?_⟩
  intro e
  simp [process_prediction, hn, trainingEvents]

/-- Witness for C10: a 200-observation run whose scraper raises. -/
theorem sentiment_failure_contained_witness :
    125 ≤ 200 ∧
    ((process_prediction 200 true (SentimentTry.raises "boom")).finalStatus =
        DbStatus.completed ∧
      (process_prediction 200 true (SentimentTry.raises "boom")).responseSentiment =
        none ∧
      (process_prediction 200 true (SentimentTry.raises "boom")).statusCode = 200 ∧
      Ev.dbUpdate DbStatus.completed ∈
        (process_prediction 200 true (SentimentTry.raises "boom")).events ∧
      (∀ e, Ev.dbUpdate (DbStatus.failed e) ∉
        (process_prediction 200 true (SentimentTry.raises "boom")).events)) :=
  ⟨by decide, sentiment_failure_contained 200 "boom" (by decide)⟩

end LambdaFunction

namespace StockForecaster

lemma set_append_singleton (t : List ℝ) (a p : ℝ) :
    (t ++ [a]).set t.length p = t ++ [p] := by
  induction t with
  | nil => rfl
  | cons x xs ih => simp [List.set, ih]

lemma rollStep_eq_tail_append (w : List ℝ) (p : ℝ) (hw : w ≠ []) :
    rollStep w p = w.tail ++ [p] := by
  obtain ⟨a, t, rfl⟩ := List.exists_cons_of_ne_nil hw
  show ((t ++ [a]).set ((t ++ [a]).length - 1) p) = t ++ [p]
  have : (t ++ [a]).length - 1 = t.length := by simp
  rw [this, set_append_singleton]

lemma rollStep_length (w : List ℝ) (p : ℝ) : (rollStep w p).length = w.length := by
  simp [rollStep, setLast, npRollNeg1]
  omega

lemma windowIter_length (model : Model) (w : List ℝ) (k : ℕ) :
    (windowIter model w k).length = w.length := by
  induction k with
  | zero => rfl
  | succ k ih => simp [windowIter, rollStep_length, ih]

lemma forecastAux_length (model : Model) (w : List ℝ) (n : ℕ) :
    (forecastAux model w n).length = n := by
  induction n generalizing w with
  | zero => rfl
  | succ n ih => simp [forecastAux, ih]

lemma windowIter_succ_shift (model : Model) (w : List ℝ) (k : ℕ) :
    windowIter model w (k + 1) =
      windowIter model (rollStep w (model w)) k := by
  induction k with
  | zero => rfl
  | succ k ih =>
      show rollStep (windowIter model w (k + 1)) (model (windowIter model w (k + 1))) =
        windowIter model (rollStep w (model w)) (k + 1)
      rw [ih]
      rfl

lemma forecastAux_getD (model : Model) (w : List ℝ) (n k : ℕ) (hk : k < n) :
    (forecastAux model w n).getD k 0 = model (windowIter model w k) := by
  induction n generalizing w k with
  | zero => omega
  | succ n ih =>
      cases k with
      | zero => rfl
      | succ k =>
          show (forecastAux model (rollStep w (model w)) n).getD k 0 = _
          rw [ih (rollStep w (model w)) k (by omega), windowIter_succ_shift]

/-- C4: the Forecaster returns exactly steps (= 20 in the source loop)
values; the k-th output is the model applied to the k-th window, and each
window update discards the oldest element and appends the new prediction
as the newest. -/
theorem forecaster_spec (model : Model) (last_window : List ℝ) (steps : ℕ)
    (hw : last_window ≠ []) :
    (forecastAux model last_window steps).length = steps ∧
    (forecastLoop model last_window).length = DAYS_AHEAD ∧
    DAYS_AHEAD = 20 ∧
    (∀ k, k < steps →
      (forecastAux model last_window steps).getD k 0 =
        model (windowIter model last_window k)) ∧
    (∀ k, windowIter model last_window (k + 1) =
      (windowIter model last_window k).tail ++
        [model (windowIter model last_window k)]) := by
  refine ⟨forecastAux_length model last_window steps,
    forecastAux_length model last_window DAYS_AHEAD, rfl,
    fun k hk => forecastAux_getD model last_window steps k hk, fun k => ?_⟩
  have hne : windowIter model last_window k ≠ [] := by
    intro hnil
    have := windowIter_length model last_window k
    rw [hnil] at this
    exact hw (List.eq_nil_of_length_eq_zero this.symm)
  show rollStep (windowIter model last_window k)
      (model (windowIter model last_window k)) = _
  exact rollStep_eq_tail_append _ _ hne

/-- Witness for C4: a nonempty three-element window, five steps, and a
concrete averaging model. -/
theorem forecaster_spec_witness :
    ([1, 2, 3] : List ℝ) ≠ [] ∧
    ((forecastAux (fun l => l.sum) [1, 2, 3] 5).length = 5 ∧
      (forecastLoop (fun l => l.sum) [1, 2, 3]).length = DAYS_AHEAD ∧
      DAYS_AHEAD = 20 ∧
      (∀ k, k < 5 →
        (forecastAux (fun l => l.sum) [1, 2, 3] 5).getD k 0 =
          (fun (l : List ℝ) => l.sum) (windowIter (fun l => l.sum) [1, 2, 3] k)) ∧
      (∀ k, windowIter (fun l => l.sum) [1, 2, 3] (k + 1) =
        (windowIter (fun l => l.sum) [1, 2, 3] k).tail ++
          [(fun (l : List ℝ) => l.sum) (windowIter (fun l => l.sum) [1, 2, 3] k)])) :=
  ⟨by simp, forecaster_spec (fun l => l.sum) [1, 2, 3] 5 (by simp)⟩

/-- On positive actuals the absolute value of the quotient is the
quotient of the absolute difference by the actual. -/
lemma zipWith_abs_div_of_pos (history predicted : List ℝ)
    (hpos : ∀ a ∈ history, 0 < a) :
    List.zipWith (fun a f => |(a - f) / a|) history predicted =
      List.zipWith (fun a f => |a - f| / a) history predicted := by
  induction history generalizing predicted with
  | nil => simp
  | cons a t ih =>
      cases predicted with
      | nil => simp
      | cons f p =>
          have ha : 0 < a := hpos a (by simp)
          have : |(a - f) / a| = |a - f| / a := by
            rw [abs_div, abs_of_pos ha]
          simp only [List.zipWith_cons_cons, this]
          rw [ih p (fun x hx => hpos x (by simp [hx]))]

/-- C6: the Metrics report concatenates train then val targets as the
historical actual series, train then val predictions as the historical
fit series, and appends the forecast to the fit series; on positive
actuals its MAPE is the mean of |actual - fit| / actual times 100. -/
theorem metrics_report_spec (r : PredictionResults)
    (hpos : ∀ a ∈ r.training_target ++ r.val_target, 0 < a)
    (hlen : (r.training_target ++ r.val_target).length =
      (r.training_prediction ++ r.val_prediction).length) :
    ∃ d, get_forecast_data r = Except.ok d ∧
      d.history = r.training_target ++ r.val_target ∧
      d.predicted_history = r.training_prediction ++ r.val_prediction ∧
      d.model_forecast = d.predicted_history ++ r.forecast ∧
      d.mape = ((List.zipWith (fun a f => |a - f| / a)
          d.history d.predicted_history).sum / d.history.length) * 100 := by
  refine ⟨_, rfl, rfl, rfl, rfl, ?_⟩
  show mapeOf (r.training_target ++ r.val_target)
      (r.training_prediction ++ r.val_prediction) = _
  rw [mapeOf, zipWith_abs_div_of_pos _ _ hpos]
  have : (List.zipWith (fun a f => |a - f| / a) (r.training_target ++ r.val_target)
      (r.training_prediction ++ r.val_prediction)).length =
      (r.training_target ++ r.val_target).length := by
    rw [List.length_zipWith, hlen, min_self]
  rw [this]

/-- Witness for C6: one train point and one val point, all positive. -/
theorem metrics_report_spec_witness :
    (∀ a ∈ ([1] : List ℝ) ++ [2], 0 < a) ∧
    (([1] : List ℝ) ++ [2]).length = (([4] : List ℝ) ++ [3]).length ∧
    (∃ d, get_forecast_data ⟨[1], [2], [4], [3], [5]⟩ = Except.ok d ∧
      d.history = ([1] : List ℝ) ++ [2] ∧
      d.predicted_history = ([4] : List ℝ) ++ [3] ∧
      d.model_forecast = d.predicted_history ++ [5] ∧
      d.mape = ((List.zipWith (fun a f => |a - f| / a)
          d.history d.predicted_history).sum / d.history.length) * 100) :=
  ⟨by intro a ha; simp at ha; rcases ha with h | h <;> simp [h], by simp,
    metrics_report_spec ⟨[1], [2], [4], [3], [5]⟩
      (by intro a ha; simp at ha; rcases ha with h | h <;> simp [h]) (by simp)⟩

/-- Input with a zero-valued historical actual (the first train target). -/
def degenerateResults : PredictionResults :=
  { training_target := [0]
    val_target := [1]
    training_prediction := [1]
    val_prediction := [1]
    forecast := [] }

/-- C7 counterexample: on an input whose first historical actual is zero,
`get_forecast_data` still returns a report — no `DegenerateInputError`
(nor any other error) is raised. -/
theorem metrics_zero_actual_no_error :
    (degenerateResults.training_target ++ degenerateResults.val_target).getD 0 1 = 0 ∧
    (get_forecast_data degenerateResults).isOk = true := by
  constructor
  · simp [degenerateResults]
  · rfl

/-- C7 amended: `get_forecast_data` never raises; it unconditionally
returns the report, whatever the actual values are, and the MAPE is the
unguarded quotient formula. -/
theorem metrics_never_raises (r : PredictionResults) :
    (get_forecast_data r).isOk = true ∧
    ∃ d, get_forecast_data r = Except.ok d ∧
      d.mape = mapeOf (r.training_target ++ r.val_target)
        (r.training_prediction ++ r.val_prediction) :=
  ⟨rfl, _, rfl, rfl⟩

/-- C9: the MAPE is invariant under any uniform positive rescaling of
both the actual and the fitted series. -/
theorem mape_scale_invariant (actual fitted : List ℝ) (c : ℝ) (hc : 0 < c) :
    mapeOf (actual.map (fun x => c * x)) (fitted.map (fun x => c * x)) =
      mapeOf actual fitted := by
  have hfun : ∀ a f : ℝ, |(c * a - c * f) / (c * a)| = |(a - f) / a| := by
    intro a f
    rw [show c * a - c * f = c * (a - f) by ring, mul_div_mul_left _ _ hc.ne']
  have hzip : List.zipWith (fun a f => |(a - f) / a|)
      (actual.map (fun x => c * x)) (fitted.map (fun x => c * x)) =
      List.zipWith (fun a f => |(a - f) / a|) actual fitted := by
    rw [List.zipWith_map]
    have : (fun (a f : ℝ) => |(c * a - c * f) / (c * a)|) =
        (fun (a f : ℝ) => |(a - f) / a|) := by
      funext a f
      exact hfun a f
    rw [this]
  rw [mapeOf, mapeOf, hzip]

/-- Witness for C9: rescaling ([1, 2], [3, 5]) by c = 2. -/
theorem mape_scale_invariant_witness :
    (0 : ℝ) < 2 ∧
    mapeOf (([1, 2] : List ℝ).map (fun x => 2 * x))
        (([3, 5] : List ℝ).map (fun x => 2 * x)) =
      mapeOf [1, 2] [3, 5] :=
  ⟨by norm_num, mape_scale_invariant [1, 2] [3, 5] 2 (by norm_num)⟩

/-- Running-maximum invariant of `idxmaxAux`: either no later element
beats the best so far (the result is the carried index), or the result
points `k` places into the rest, at the first strict improvement, which
dominates everything in the rest. -/
lemma idxmaxAux_cases {α : Type} [LinearOrder α] (d : α) (rest : List α) :
    ∀ (bi i : ℕ) (bv : α),
      (idxmaxAux bi bv i rest = bi ∧ ∀ m, m < rest.length → rest.getD m d ≤ bv) ∨
      (∃ k, k < rest.length ∧ idxmaxAux bi bv i rest = i + k ∧
        bv < rest.getD k d ∧
        (∀ m, m < rest.length → rest.getD m d ≤ rest.getD k d) ∧
        (∀ m, m < k → rest.getD m d < rest.getD k d)) := by
  induction rest with
  | nil =>
      intro bi i bv
      exact Or.inl ⟨rfl, by simp⟩
  | cons y ys ih =>
      intro bi i bv
      by_cases hy : bv < y
      · rcases ih i (i + 1) y with ⟨heq, hle⟩ | ⟨k, hk, heq, hlt, hmax, hfirst⟩
        · refine Or.inr ⟨0, by simp, ?_, by simpa using hy, ?_, by omega⟩
          · simp only [idxmaxAux, if_pos hy, heq]
            omega
          · intro m hm
            cases m with
            | zero => simp
            | succ m =>
                simp only [List.getD_cons_succ, List.getD_cons_zero]
                exact hle m (by simpa using hm)
        · refine Or.inr ⟨k + 1, by simpa using hk, ?_, ?_, ?_, ?_⟩
          · simp only [idxmaxAux, if_pos hy, heq]
            omega
          · simpa using lt_trans hy hlt
          · intro m hm
            cases m with
            | zero =>
                simpa using le_of_lt hlt
            | succ m =>
                simpa using hmax m (by simpa using hm)
          · intro m hm
            cases m with
            | zero => simpa using hlt
            | succ m => simpa using hfirst m (by omega)
      · rcases ih bi (i + 1) bv with ⟨heq, hle⟩ | ⟨k, hk, heq, hlt, hmax, hfirst⟩
        · refine Or.inl ⟨by simp only [idxmaxAux, if_neg hy, heq], ?_⟩
          intro m hm
          cases m with
          | zero => simpa using le_of_not_lt hy
          | succ m => simpa using hle m (by simpa using hm)
        · refine Or.inr ⟨k + 1, by simpa using hk, ?_, ?_, ?_, ?_⟩
          · simp only [idxmaxAux, if_neg hy, heq]
            omega
          · simpa using hlt
          · intro m hm
            cases m with
            | zero => simpa using le_of_lt (lt_of_le_of_lt (le_of_not_lt hy) hlt)
            | succ m => simpa using hmax m (by simpa using hm)
          · intro m hm
            cases m with
            | zero => simpa using lt_of_le_of_lt (le_of_not_lt hy) hlt
            | succ m => simpa using hfirst m (by omega)

/-- `idxmax` is a stable argmax: the returned index is in range, its
element is a maximum, and every earlier element is strictly smaller. -/
lemma idxmax_is_first_argmax {α : Type} [LinearOrder α] (d : α) (l : List α)
    (hl : l ≠ []) :
    idxmax l < l.length ∧
    (∀ j, j < l.length → l.getD j d ≤ l.getD (idxmax l) d) ∧
    (∀ j, j < idxmax l → l.getD j d < l.getD (idxmax l) d) := by
  obtain ⟨x, xs, rfl⟩ := List.exists_cons_of_ne_nil hl
  have hunfold : idxmax (x :: xs) = idxmaxAux 0 x 1 xs := rfl
  rcases idxmaxAux_cases d xs 0 1 x with ⟨heq, hle⟩ | ⟨k, hk, heq, hlt, hmax, hfirst⟩
  · rw [hunfold, heq]
    refine ⟨by simp, ?_, by omega⟩
    intro j hj
    cases j with
    | zero => simp
    | succ j => simpa using hle j (by simpa using hj)
  · rw [hunfold, heq]
    have hk1 : 1 + k = k + 1 := by omega
    rw [hk1]
    refine ⟨by simpa using hk, ?_, ?_⟩
    · intro j hj
      cases j with
      | zero => simpa using le_of_lt hlt
      | succ j => simpa using hmax j (by simpa using hj)
    · intro j hj
      cases j with
      | zero => simpa using hlt
      | succ j => simpa using hfirst j (by omega)

/-- C3: for each epoch the Epoch Selector scores
1 / (0.25 * sqrt(train_loss) + 0.75 * sqrt(val_loss)) and picks the
index of the globally maximal score, resolving ties to the first
(lowest) epoch index. -/
theorem epoch_selector_spec (E : ℕ) (training_loss_list val_loss_list : List ℝ)
    (hE : 0 < E) :
    (∀ i, i < E → (scores E training_loss_list val_loss_list).getD i 0 =
      1 / ((1 / 4) * Real.sqrt (training_loss_list.getD i 0) +
           (3 / 4) * Real.sqrt (val_loss_list.getD i 0))) ∧
    idxmax (scores E training_loss_list val_loss_list) < E ∧
    (∀ j, j < E → (scores E training_loss_list val_loss_list).getD j 0 ≤
      (scores E training_loss_list val_loss_list).getD
        (idxmax (scores E training_loss_list val_loss_list)) 0) ∧
    (∀ j, j < idxmax (scores E training_loss_list val_loss_list) →
      (scores E training_loss_list val_loss_list).getD j 0 <
        (scores E training_loss_list val_loss_list).getD
          (idxmax (scores E training_loss_list val_loss_list)) 0) := by
  have hlen : (scores E training_loss_list val_loss_list).length = E := by
    simp [scores]
  have hne : scores E training_loss_list val_loss_list ≠ [] := by
    intro hnil
    rw [hnil] at hlen
    simp at hlen
    omega
  obtain ⟨hidx, hmax, hfirst⟩ :=
    idxmax_is_first_argmax (0 : ℝ) (scores E training_loss_list val_loss_list) hne
  refine ⟨?_, by omega, fun j hj => hmax j (by omega), hfirst⟩
  intro i hi
  simp [scores, List.getD_eq_getElem?_getD, List.getElem?_map, List.getElem?_range, hi,
    epochScore, ALPHA]
  norm_num

/-- Witness for C3: two epochs with losses ([1, 1], [1, 4]); the scores
are [1, 4/7] and the first epoch wins. -/
theorem epoch_selector_spec_witness :
    0 < 2 ∧
    ((∀ i, i < 2 → (scores 2 [1, 1] [(1 : ℝ), 4]).getD i 0 =
        1 / ((1 / 4) * Real.sqrt (([1, 1] : List ℝ).getD i 0) +
             (3 / 4) * Real.sqrt (([(1 : ℝ), 4] : List ℝ).getD i 0))) ∧
      idxmax (scores 2 [1, 1] [(1 : ℝ), 4]) < 2 ∧
      (∀ j, j < 2 → (scores 2 [1, 1] [(1 : ℝ), 4]).getD j 0 ≤
        (scores 2 [1, 1] [(1 : ℝ), 4]).getD
          (idxmax (scores 2 [1, 1] [(1 : ℝ), 4])) 0) ∧
      (∀ j, j < idxmax (scores 2 [1, 1] [(1 : ℝ), 4]) →
        (scores 2 [1, 1] [(1 : ℝ), 4]).getD j 0 <
          (scores 2 [1, 1] [(1 : ℝ), 4]).getD
            (idxmax (scores 2 [1, 1] [(1 : ℝ), 4])) 0)) :=
  ⟨by decide, epoch_selector_spec 2 [1, 1] [1, 4] (by decide)⟩

/-- A two-epoch run in which the optimal epoch is the first, not the
last: the loss histories ([1, 1], [1, 4]) score the first checkpoint
higher, the epoch-1 checkpoint predicts 0 everywhere, and the post-fit
in-memory model (= the epoch-2 weights) predicts 1 everywhere. -/
def bugHistory : TrainHistory :=
  { finalModel := fun _ => 1
    checkpointModels := [fun _ => 0, fun _ => 1]
    training_loss_list := [1, 1]
    val_loss_list := [1, 4] }

noncomputable def bugWindow : List ℝ := List.replicate WINDOW_SIZE (1 / 2)

lemma forecastAux_const (c : ℝ) (w : List ℝ) (n : ℕ) :
    forecastAux (fun _ => c) w n = List.replicate n c := by
  induction n generalizing w with
  | zero => rfl
  | succ n ih => simp [forecastAux, List.replicate_succ, ih]

lemma sqrt_four_eq_two : Real.sqrt 4 = 2 := by
  rw [show (4 : ℝ) = 2 ^ 2 by norm_num, Real.sqrt_sq (by norm_num)]

lemma bugHistory_scores : scores 2 [1, 1] [(1 : ℝ), 4] = [1, 4 / 7] := by
  have h2 : List.range 2 = [0, 1] := rfl
  simp only [scores, h2, List.map_cons, List.map_nil, List.getD_cons_zero,
    List.getD_cons_succ]
  rw [epochScore, epochScore, ALPHA, Real.sqrt_one, sqrt_four_eq_two]
  norm_num

lemma bugHistory_optimal_index : optimal_index bugHistory = 0 := by
  have hl : bugHistory.checkpointModels.length = 2 := rfl
  have ht : bugHistory.training_loss_list = [(1 : ℝ), 1] := rfl
  have hv : bugHistory.val_loss_list = [(1 : ℝ), 4] := rfl
  rw [optimal_index, hl, ht, hv, bugHistory_scores]
  show idxmaxAux 0 1 1 [4 / 7] = 0
  rw [idxmaxAux, if_neg (by norm_num)]
  rfl

/-- C1 (the code at the failing input): on `bugHistory` the Epoch
Selector picks epoch index 0, whose checkpoint predicts 0, yet the
20-step prediction loop and the historical-fit predictions run the
post-fit final model, which predicts 1 — the loaded optimal checkpoint is
never the model applied. -/
theorem forecast_uses_final_model_not_selected :
    optimal_index bugHistory = 0 ∧
    performForecast bugHistory bugWindow = List.replicate 20 1 ∧
    forecastAux (optimal_model bugHistory) bugWindow DAYS_AHEAD =
      List.replicate 20 0 ∧
    performForecast bugHistory bugWindow ≠
      forecastAux (optimal_model bugHistory) bugWindow DAYS_AHEAD ∧
    fitModel bugHistory bugWindow = 1 ∧
    optimal_model bugHistory bugWindow = 0 := by
  have hopt : optimal_model bugHistory = (fun _ => (0 : ℝ)) := by
    rw [optimal_model, bugHistory_optimal_index]
    rfl
  have h1 : performForecast bugHistory bugWindow = List.replicate 20 1 :=
    forecastAux_const 1 bugWindow 20
  have h0 : forecastAux (optimal_model bugHistory) bugWindow DAYS_AHEAD =
      List.replicate 20 0 := by
    rw [hopt]
    exact forecastAux_const 0 bugWindow 20
  refine ⟨bugHistory_optimal_index, h1, h0, ?_, rfl, by rw [hopt]⟩
  rw [h1, h0]
  intro hcontra
  have := congrArg (fun l => l.getD 0 0) hcontra
  simp [List.replicate_succ] at this

end StockForecaster
